import Mathlib

/-!
# Verification of the release-notifier pipeline

Shallow embedding of the repository's two source files (`src/main.rs`,
`src/download.rs`).  Network and file-system interaction is modelled by a
pure oracle environment (`Env`): each outbound request is a function from
its argument to the response the environment would give, and every
externally visible action performed by the program is recorded in an
explicit effect trace.  Rust `u64` values are modelled as `Nat` (the only
arithmetic performed is comparison against the 50 MiB threshold and
decimal parsing, neither of which can overflow `u64` observably except in
`str::parse`, whose overflow check is modelled explicitly).
`anyhow::Result<T>` is modelled as `Except String T` with the error
message as payload, except for the size probe whose error cases are
distinguished by an inductive type.
-/

/-- Model of the `Asset` struct of `src/main.rs` (deserialized from the
release JSON): an asset name and its download URL. -/
structure Asset where
  name : String
  browser_download_url : String
deriving DecidableEq, Repr

/-- Model of the `Release` struct of `src/main.rs`: tag, optional title
and body, and the ordered list of assets. -/
structure Release where
  tag_name : String
  name : Option String
  body : Option String
  assets : List Asset
deriving DecidableEq, Repr

/-- Model of the `Prev` struct of `src/main.rs`: the persisted mapping
repo → last seen tag.  Rust's `HashMap<String, String>` is modelled as an
association list with at most one entry per key (lookup returns the first
match, insertion replaces in place), which matches `HashMap` observable
behaviour for the maps the program builds. -/
structure Prev where
  repos : List (String × String)
deriving DecidableEq, Repr

/-- Model of `HashMap::get`: first-match association lookup. -/
def lookupKey : List (String × String) → String → Option String
  | [], _ => none
  | (k', v) :: rest, k => if k' = k then some v else lookupKey rest k

/-- `prev.repos.get(repo)` of the source. -/
def Prev.get (p : Prev) (k : String) : Option String := lookupKey p.repos k

/-- Model of `HashMap::insert`: replace the value if the key is present,
otherwise append the new binding. -/
def insertKey : List (String × String) → String → String → List (String × String)
  | [], k, v => [(k, v)]
  | (k', v') :: rest, k, v =>
    if k' = k then (k', v) :: rest else (k', v') :: insertKey rest k v

/-- `prev.repos.insert(repo, tag)` of the source. -/
def Prev.insert (p : Prev) (k v : String) : Prev := ⟨insertKey p.repos k v⟩

/-- Model of Rust `str::parse::<u64>`: an optional leading `+`, then at
least one ASCII digit and nothing else; the value must fit in 64 bits
(Rust reports overflow as a parse error). -/
def parseU64 (s : String) : Option Nat :=
  let cs := match s.data with
    | '+' :: rest => rest
    | cs => cs
  if cs = [] then none
  else if cs.all (fun c => c.isDigit) then
    let n := cs.foldl (fun acc c => acc * 10 + (c.toNat - 48)) 0
    if n < 2 ^ 64 then some n else none
  else none

/-- Error cases of the size probe `fetch_asset_size` of `src/main.rs`:
the `?` on `send()` (connection-level failure), the `?` on
`HeaderValue::to_str` (header bytes not visible ASCII), and the `?` on
`str::parse::<u64>`. -/
inductive ProbeErr where
  | transport (msg : String)
  | headerToStr
  | parseInt
deriving DecidableEq, Repr

/-- `HeaderValue::to_str` succeeds exactly when every byte of the value is
visible ASCII; header values are modelled as strings of such characters. -/
def headerVisibleAscii (s : String) : Bool :=
  s.data.all (fun c => 32 ≤ c.toNat && c.toNat ≤ 126)

/-- Model of `fetch_asset_size` of `src/main.rs`.  The argument is the
outcome of the HEAD request: connection failure, or a response together
with its optional `Content-Length` header value.
`client.head(url).send().await?` propagates a connection failure; if the
header is present its value is converted with `to_str()?` and parsed with
`parse::<u64>()?`; if it is absent the probe returns `Ok(0)`. -/
def fetch_asset_size (resp : Except String (Option String)) : Except ProbeErr Nat :=
  match resp with
  | .error m => .error (.transport m)
  | .ok none => .ok 0
  | .ok (some h) =>
    if headerVisibleAscii h then
      match parseU64 h with
      | some n => .ok n
      | none => .error .parseInt
    else .error .headerToStr

/-- The pure oracle environment: the response each outbound request would
receive.  Deterministic per argument, which is all the claims need. -/
structure Env where
  fetchRelease : String → Except String Release
  head : String → Except String (Option String)
  getBytes : String → Except String (List Nat)
  sendDocument : String → String → String → Except String Unit
  sendMessage : String → String → Except String Unit

/-- Externally visible actions of `process_repos`, in program order. -/
inductive Effect where
  | fetch (repo : String)
  | headReq (url : String)
  | getReq (url : String)
  | sendDoc (chat_id name caption : String)
  | sendMsg (chat_id text : String)
  | saveState (content : String)
deriving DecidableEq, Repr

/-- The rendered size of the caption.  The source formats
`size as f64 / 1024.0 / 1024.0` with `{:.2}`; the floating-point rendering
is modelled by exact rational arithmetic rounded half-up to two decimals.
No claim depends on the digits themselves. -/
def fmtMB (size : Nat) : String :=
  let centi := (size * 100 + 524288) / 1048576
  toString (centi / 100) ++ "." ++
    (if centi % 100 < 10 then "0" else "") ++ toString (centi % 100)

/-- The caption of `sendDocument`:
`format!("\x7b\x7d (\x7b:.2\x7d MB)", asset.name, ...)`. -/
def captionOf (a : Asset) (size : Nat) : String :=
  a.name ++ " (" ++ fmtMB size ++ " MB)"

/-- The two lines appended to the text message for a link-path asset:
the display link and the curl command block. -/
def linkEntry (a : Asset) : String :=
  "🔗 [" ++ a.name ++ "](" ++ a.browser_download_url ++ ")\n" ++
  "\n🧲 curl command:\n```\ncurl -L --http1.1 -A \"Mozilla/5.0\" -o " ++
  a.name ++ " " ++ a.browser_download_url ++ "\n```\n"

/-- The header of the per-repository text message. -/
def releaseHeader (repo tag : String) : String :=
  "🚀 New Release from *" ++ repo ++ "*: *" ++ tag ++ "*\n\n"

/-- One iteration of the per-asset loop of `process_repos`
(`src/main.rs` lines 87–113).  The probe result is collapsed with
`.unwrap_or(0)`; if `size > 0 && size <= 50 * 1024 * 1024` the asset body
is fetched (`?`) and posted to `sendDocument` (`?`), otherwise the link
entry is appended to the message and `sent_text` is set.  Returns the
effect trace of the iteration and either the propagated error or the
updated `(message, sent_text)` pair. -/
def processAsset (env : Env) (chat_id : String) (a : Asset)
    (msg : String) (sentText : Bool) :
    List Effect × Except String (String × Bool) :=
  let size := (fetch_asset_size (env.head a.browser_download_url)).toOption.getD 0
  if 0 < size ∧ size ≤ 50 * 1024 * 1024 then
    match env.getBytes a.browser_download_url with
    | .error e =>
      ([.headReq a.browser_download_url, .getReq a.browser_download_url], .error e)
    | .ok _ =>
      match env.sendDocument chat_id a.name (captionOf a size) with
      | .error e =>
        ([.headReq a.browser_download_url, .getReq a.browser_download_url,
          .sendDoc chat_id a.name (captionOf a size)], .error e)
      | .ok _ =>
        ([.headReq a.browser_download_url, .getReq a.browser_download_url,
          .sendDoc chat_id a.name (captionOf a size)], .ok (msg, sentText))
  else
    ([.headReq a.browser_download_url], .ok (msg ++ linkEntry a, true))

/-- The whole per-asset loop: threads `(message, sent_text)` through
`processAsset`, stopping (as `?` does) at the first propagated error. -/
def processAssets (env : Env) (chat_id : String) :
    List Asset → String → Bool → List Effect × Except String (String × Bool)
  | [], msg, st => ([], .ok (msg, st))
  | a :: rest, msg, st =>
    match processAsset env chat_id a msg st with
    | (effs, .error e) => (effs, .error e)
    | (effs, .ok (msg', st')) =>
      match processAssets env chat_id rest msg' st' with
      | (effs', r) => (effs ++ effs', r)

/-- The body of one iteration of the repository loop after the skip check:
process the assets, send the aggregated text message when `sent_text` is
set (`?` propagates its failure), then insert the tag into the record. -/
def processRepoBody (env : Env) (chat_id : String) (prev : Prev)
    (repo : String) (release : Release) : List Effect × Except String Prev :=
  match processAssets env chat_id release.assets
      (releaseHeader repo release.tag_name) false with
  | (effs, .error e) => (.fetch repo :: effs, .error e)
  | (effs, .ok (message, sentText)) =>
    if sentText then
      match env.sendMessage chat_id message with
      | .error e =>
        (.fetch repo :: effs ++ [.sendMsg chat_id message], .error e)
      | .ok _ =>
        (.fetch repo :: effs ++ [.sendMsg chat_id message],
         .ok (prev.insert repo release.tag_name))
    else
      (.fetch repo :: effs, .ok (prev.insert repo release.tag_name))

/-- One iteration of the repository loop of `process_repos`
(`src/main.rs` lines 70–132): fetch the latest release (`?` propagates the
failure), skip (`continue`) when the stored tag equals the fetched tag,
otherwise run the delivery body. -/
def processRepo (env : Env) (chat_id : String) (prev : Prev) (repo : String) :
    List Effect × Except String Prev :=
  match env.fetchRelease repo with
  | .error e => ([.fetch repo], .error e)
  | .ok release =>
    match prev.get repo with
    | some last_tag =>
      if last_tag = release.tag_name then ([.fetch repo], .ok prev)
      else processRepoBody env chat_id prev repo release
    | none => processRepoBody env chat_id prev repo release

/-- The repository loop: `?` on the fetch aborts the remaining iterations. -/
def processReposLoop (env : Env) (chat_id : String) :
    Prev → List String → List Effect × Except String Prev
  | prev, [] => ([], .ok prev)
  | prev, r :: rs =>
    match processRepo env chat_id prev r with
    | (effs, .error e) => (effs, .error e)
    | (effs, .ok prev') =>
      match processReposLoop env chat_id prev' rs with
      | (effs', res) => (effs ++ effs', res)

/-- Derived from the inline skip check of `process_repos` (the spec's
`has_changed`): true when the record has no entry for the repository or
when the stored tag differs from the candidate tag as a string. -/
def has_changed (prev : Prev) (repo tag : String) : Bool :=
  match prev.get repo with
  | none => true
  | some last_tag => last_tag != tag

/-! ## Serialization layer

`save_prev` serializes `Prev` with `serde_json::to_string_pretty` and
`load_prev` parses with `serde_json::from_str::<Prev>`.  Both library
functions are modelled concretely: the encoder below reproduces
`to_string_pretty`'s exact output for this type (two-space indentation,
`": "` separators, serde's string-escaping table), and the parser below is
a recursive-descent reader of the JSON fragment `from_str` accepts for
this type (an object with the single field `"repos"` holding an object of
string members, with arbitrary interleaved whitespace).  Deviations from
`serde_json`, none of which is observable through the program: the parser
accepts a trailing comma in the member list, rejects `\uXXXX` escapes in
the surrogate range rather than pairing them, and requires the field
`"repos"` to be the only field (serde would ignore unknown fields). -/

/-- Lower-case hex digit, as `serde_json` emits in `\u00XX` escapes. -/
def hexDigitCh (n : Nat) : Char :=
  if n < 10 then Char.ofNat (48 + n) else Char.ofNat (87 + n)

/-- `serde_json`'s per-character string escaping: `"` and `\` get a
backslash, the five short control escapes are used where they exist, any
other control character becomes `\u00XX`, and everything else is emitted
verbatim. -/
def escapeChar (c : Char) : List Char :=
  if c = '"' then ['\\', '"']
  else if c = '\\' then ['\\', '\\']
  else if c = '\x08' then ['\\', 'b']
  else if c = '\t' then ['\\', 't']
  else if c = '\n' then ['\\', 'n']
  else if c = '\x0c' then ['\\', 'f']
  else if c = '\r' then ['\\', 'r']
  else if c.toNat < 32 then
    ['\\', 'u', '0', '0', hexDigitCh (c.toNat / 16), hexDigitCh (c.toNat % 16)]
  else [c]

/-- Escape a whole string body. -/
def escapeList : List Char → List Char
  | [] => []
  | c :: cs => escapeChar c ++ escapeList cs

/-- A JSON string literal: quote, escaped body, quote. -/
def encodeJString (s : String) : List Char :=
  '"' :: (escapeList s.data ++ ['"'])

/-- The members of the inner `"repos"` object, in `to_string_pretty`
layout: each member on its own line at indentation 4, `,` separated. -/
def encodeMembers : List (String × String) → List Char
  | [] => []
  | (k, v) :: rest =>
    '\n' :: ' ' :: ' ' :: ' ' :: ' ' ::
      (encodeJString k ++ ':' :: ' ' :: encodeJString v ++
        (match rest with
         | [] => []
         | _ :: _ => ',' :: encodeMembers rest))

/-- The inner object: `\x7b\x7d` when empty, otherwise members followed by
the closing brace at indentation 2. -/
def encodeInner (ps : List (String × String)) : List Char :=
  match ps with
  | [] => ['\x7b', '\x7d']
  | _ :: _ => '\x7b' :: (encodeMembers ps ++ '\n' :: ' ' :: ' ' :: ['\x7d'])

/-- `serde_json::to_string_pretty` applied to a `Prev` value. -/
def encodePrevChars (p : Prev) : List Char :=
  '\x7b' :: '\n' :: ' ' :: ' ' ::
    (encodeJString "repos" ++ ':' :: ' ' ::
      (encodeInner p.repos ++ '\n' :: ['\x7d']))

/-- String form of the serialized record. -/
def encodePrev (p : Prev) : String := ⟨encodePrevChars p⟩

/-- JSON whitespace (space, newline, tab, carriage return) skipper. -/
def skipWs : List Char → List Char
  | [] => []
  | c :: rest =>
    if c = ' ' ∨ c = '\n' ∨ c = '\t' ∨ c = '\r' then skipWs rest else c :: rest

/-- Value of a hex digit, either case. -/
def hexVal (c : Char) : Option Nat :=
  if 48 ≤ c.toNat ∧ c.toNat ≤ 57 then some (c.toNat - 48)
  else if 97 ≤ c.toNat ∧ c.toNat ≤ 102 then some (c.toNat - 87)
  else if 65 ≤ c.toNat ∧ c.toNat ≤ 70 then some (c.toNat - 55)
  else none

/-- Prepend a decoded character to the result of parsing the rest of a
string literal. -/
def consFst (c : Char) :
    Option (List Char × List Char) → Option (List Char × List Char)
  | some (s, r) => some (c :: s, r)
  | none => none

/-- Read a JSON string literal body after its opening quote, returning the
decoded characters and the input after the closing quote.  Handles the
escape forms `serde_json` accepts (rejecting surrogate-range `\uXXXX`, see
the section comment) and rejects raw control characters. -/
def parseJStringAux : List Char → Option (List Char × List Char)
  | [] => none
  | c :: rest =>
    if c = '"' then some ([], rest)
    else if c = '\\' then
      match rest with
      | [] => none
      | e :: r2 =>
        if e = '"' then consFst '"' (parseJStringAux r2)
        else if e = '\\' then consFst '\\' (parseJStringAux r2)
        else if e = '/' then consFst '/' (parseJStringAux r2)
        else if e = 'b' then consFst '\x08' (parseJStringAux r2)
        else if e = 'f' then consFst '\x0c' (parseJStringAux r2)
        else if e = 'n' then consFst '\n' (parseJStringAux r2)
        else if e = 'r' then consFst '\r' (parseJStringAux r2)
        else if e = 't' then consFst '\t' (parseJStringAux r2)
        else if e = 'u' then
          match r2 with
          | h1 :: h2 :: h3 :: h4 :: r3 =>
            match hexVal h1, hexVal h2, hexVal h3, hexVal h4 with
            | some a, some b, some c', some d =>
              let n := ((a * 16 + b) * 16 + c') * 16 + d
              if n < 55296 ∨ 57343 < n then consFst (Char.ofNat n) (parseJStringAux r3)
              else none
            | _, _, _, _ => none
          | _ => none
        else none
    else if c.toNat < 32 then none
    else consFst c (parseJStringAux rest)

/-- Read the member list of an object of string values, starting after the
opening brace; the fuel bounds the number of members (one unit is spent
per member, so any fuel above the input length is enough). -/
def parseMembersF : Nat → List Char → Option (List (String × String) × List Char)
  | 0, _ => none
  | f + 1, l =>
    match skipWs l with
    | '\x7d' :: r => some ([], r)
    | '"' :: r =>
      match parseJStringAux r with
      | some (k, r2) =>
        (match skipWs r2 with
         | ':' :: r3 =>
           (match skipWs r3 with
            | '"' :: r4 =>
              (match parseJStringAux r4 with
               | some (v, r5) =>
                 (match skipWs r5 with
                  | ',' :: r6 =>
                    (match parseMembersF f r6 with
                     | some (ps, r7) => some ((⟨k⟩, ⟨v⟩) :: ps, r7)
                     | none => none)
                  | '\x7d' :: r6 => some ([(⟨k⟩, ⟨v⟩)], r6)
                  | _ => none)
               | none => none)
            | _ => none)
         | _ => none)
      | none => none
    | _ => none

/-- `serde_json::from_str::<Prev>` on a character list: an object whose
single field `"repos"` holds an object of string members, then end of
input (modulo whitespace). -/
def parsePrevChars (l : List Char) : Option Prev :=
  match skipWs l with
  | '\x7b' :: r =>
    (match skipWs r with
     | '"' :: r1 =>
       (match parseJStringAux r1 with
        | some (k, r2) =>
          if k = "repos".data then
            match skipWs r2 with
            | ':' :: r3 =>
              (match skipWs r3 with
               | '\x7b' :: r4 =>
                 (match parseMembersF (r4.length + 1) r4 with
                  | some (ps, r5) =>
                    (match skipWs r5 with
                     | '\x7d' :: r6 => if skipWs r6 = [] then some ⟨ps⟩ else none
                     | _ => none)
                  | none => none)
               | _ => none)
            | _ => none
          else none
        | none => none)
     | _ => none)
  | _ => none

/-- `serde_json::from_str::<Prev>` on a string. -/
def parsePrev (s : String) : Option Prev := parsePrevChars s.data

/-- Model of `load_prev` of `src/main.rs`.  The file system is modelled as
the optional content of `prev.json`: when the file exists its text is
parsed, any parse failure yielding the empty record; when it does not
exist the record is empty.  (A read error makes `read_to_string`
return `""` via `unwrap_or_default`, which also parses to the empty
record, so it needs no separate case.) -/
def load_prev (fs : Option String) : Prev :=
  match fs with
  | some data => (parsePrev data).getD ⟨[]⟩
  | none => ⟨[]⟩

/-- Model of `save_prev` of `src/main.rs`: the text written to the state
file (`to_string_pretty` cannot fail for this type; the `fs::write` is
modelled as succeeding, its result being the new file content). -/
def save_prev (prev : Prev) : String := encodePrev prev

/-- Model of `process_repos` of `src/main.rs`: load the record from the
state file, run the repository loop (a propagated error aborts the run
before `save_prev`), then persist the record once.  Returns the effect
trace and either the propagated error or the new state-file content. -/
def process_repos (env : Env) (chat_id : String) (fs : Option String)
    (repos : List String) : List Effect × Except String (Option String) :=
  let prev := load_prev fs
  match processReposLoop env chat_id prev repos with
  | (effs, .error e) => (effs, .error e)
  | (effs, .ok prev') =>
    (effs ++ [.saveState (save_prev prev')], .ok (some (save_prev prev')))

/-! ## The standalone downloader (`src/download.rs`) -/

/-- File-system actions of the downloader. -/
inductive FsEffect where
  | mkdir (dir : String)
  | write (path content : String)
deriving DecidableEq, Repr

/-- `repo.replace("/", "_")` of the source; for the single-character
pattern `"/"` Rust's `str::replace` is exactly this character map. -/
def replaceSlash (s : String) : String :=
  ⟨s.data.map (fun c => if c = '/' then '_' else c)⟩

/-- Model of `download_asset` of `src/download.rs`: GET the URL (the `?`
on `send()` and on `bytes()` are collapsed into the oracle's single
outcome), then write the body to `dir/filename`.  Returns the write
effects performed and the task's result.  Body bytes are rendered as a
string for the write effect. -/
def download_asset (env : Env) (url dir filename : String) :
    List FsEffect × Except String Unit :=
  match env.getBytes url with
  | .error e => ([], .error e)
  | .ok bytes => ([.write (dir ++ "/" ++ filename) (toString bytes)], .ok ())

/-- The result of the join loop `for t in tasks { t.await?? }`: the error
of the first failed task in spawn order, if any. -/
def firstErr : List (Except String Unit) → Option String
  | [] => none
  | .error e :: _ => some e
  | .ok _ :: rest => firstErr rest

/-- Model of `download_assets_concurrent` of `src/download.rs`.  The
directory `assets/{repo with '/' → '_'}` is created, one task per asset is
spawned, and `file_paths` collects `dir/name` in asset order.  The tasks
are independent (distinct URLs/paths) and are not cancelled, so every
successful task's write happens regardless of join order; the effect
trace lists the directory creation and the writes of all successful
tasks in spawn order.  The join loop propagates the first failed task's
error (in spawn order); on success the collected paths are returned. -/
def download_assets_concurrent (env : Env) (repo : String)
    (release : Release) : List FsEffect × Except String (List String) :=
  let dir := "assets/" ++ replaceSlash repo
  let file_paths := release.assets.map (fun a => dir ++ "/" ++ a.name)
  let results := release.assets.map
    (fun a => download_asset env a.browser_download_url dir a.name)
  let effs := FsEffect.mkdir dir :: (results.map Prod.fst).flatten
  match firstErr (results.map Prod.snd) with
  | some e => (effs, .error e)
  | none => (effs, .ok file_paths)

deriving instance DecidableEq for Except

/-! ## Concrete fixtures used by witnesses and counterexamples -/

/-- A release with tag `v1` and a single asset, used by the skip
scenarios. -/
def relV1 : Release := ⟨"v1", none, none, [⟨"x.bin", "u1"⟩]⟩

/-- A release with tag `v2` and two assets, used by the partial-failure
scenarios. -/
def relV2 : Release := ⟨"v2", none, none, [⟨"a1", "u1"⟩, ⟨"a2", "u2"⟩]⟩

/-- Environment whose size probe reports exactly the 50 MiB threshold. -/
def env50 : Env where
  fetchRelease := fun _ => .error "unused"
  head := fun _ => .ok (some "52428800")
  getBytes := fun _ => .ok []
  sendDocument := fun _ _ _ => .ok ()
  sendMessage := fun _ _ => .ok ()

/-- Environment whose size probe reports one byte over the threshold. -/
def env51 : Env where
  fetchRelease := fun _ => .error "unused"
  head := fun _ => .ok (some "52428801")
  getBytes := fun _ => .ok []
  sendDocument := fun _ _ _ => .ok ()
  sendMessage := fun _ _ => .ok ()

/-- Environment for the unchanged-tag scenario: fetching `a/b` yields the
release with tag `v1`. -/
def envSkip : Env where
  fetchRelease := fun r => if r = "a/b" then .ok relV1 else .error "nf"
  head := fun _ => .ok (some "10")
  getBytes := fun _ => .ok []
  sendDocument := fun _ _ _ => .ok ()
  sendMessage := fun _ _ => .ok ()

/-- Environment where fetching repository `r1` fails and fetching any
other repository succeeds. -/
def envFetchFail : Env where
  fetchRelease := fun r => if r = "r1" then .error "down" else .ok relV1
  head := fun _ => .ok none
  getBytes := fun _ => .ok []
  sendDocument := fun _ _ _ => .ok ()
  sendMessage := fun _ _ => .ok ()

/-- Environment where both assets of `relV2` probe small (10 bytes) but
the download of the first asset's body fails. -/
def envBoom : Env where
  fetchRelease := fun r => if r = "o/r" then .ok relV2 else .error "nf"
  head := fun _ => .ok (some "10")
  getBytes := fun u => if u = "u1" then .error "boom" else .ok []
  sendDocument := fun _ _ _ => .ok ()
  sendMessage := fun _ _ => .ok ()

/-- A release with five assets, used by the downloader scenarios. -/
def rel5 : Release :=
  ⟨"v5", none, none,
   [⟨"n1", "w1"⟩, ⟨"n2", "w2"⟩, ⟨"n3", "w3"⟩, ⟨"n4", "w4"⟩, ⟨"n5", "w5"⟩]⟩

/-- Environment where the downloads of assets `n2` and `n4` of `rel5`
fail and the other three succeed. -/
def envTwoFail : Env where
  fetchRelease := fun _ => .error "unused"
  head := fun _ => .ok none
  getBytes := fun u =>
    if u = "w2" then .error "e2" else if u = "w4" then .error "e4" else .ok [7]
  sendDocument := fun _ _ _ => .ok ()
  sendMessage := fun _ _ => .ok ()

/-- Environment where every download succeeds with body `[7]`. -/
def envAllOk : Env where
  fetchRelease := fun _ => .error "unused"
  head := fun _ => .ok none
  getBytes := fun _ => .ok [7]
  sendDocument := fun _ _ _ => .ok ()
  sendMessage := fun _ _ => .ok ()

/-- Environment where every size probe fails at the connection level. -/
def envHeadFail : Env where
  fetchRelease := fun r => if r = "o/r" then .ok relV2 else .error "nf"
  head := fun _ => .error "timeout"
  getBytes := fun _ => .ok []
  sendDocument := fun _ _ _ => .ok ()
  sendMessage := fun _ _ => .ok ()

/-! ## Helper lemmas: the serializer/parser round trip -/

/-- Decoding a hex digit the encoder produced gives back its value. -/
theorem hexVal_hexDigitCh (n : Nat) (h : n < 16) :
    hexVal (hexDigitCh n) = some n := by
  interval_cases n <;> decide

/-- Reading back an escaped string body: the decoded characters are the
original ones and the input after the closing quote is untouched. -/
theorem parseJStringAux_escapeList (cs : List Char) (rest : List Char) :
    parseJStringAux (escapeList cs ++ '"' :: rest) = some (cs, rest) := by
  induction cs generalizing rest with
  | nil => rw [escapeList, List.nil_append, parseJStringAux.eq_def]; simp
  | cons c cs ih =>
    by_cases h1 : c = '"'
    · subst h1
      simp only [escapeList, escapeChar, if_pos rfl, List.cons_append,
        List.append_assoc]
      rw [parseJStringAux.eq_def]; simp [consFst, ih]
    · by_cases h2 : c = '\\'
      · subst h2
        simp only [escapeList, escapeChar, reduceIte, List.cons_append,
          List.append_assoc]
        rw [parseJStringAux.eq_def]; simp [consFst, ih]
      · by_cases h3 : c = '\x08'
        · subst h3
          simp only [escapeList, escapeChar, reduceIte, List.cons_append,
            List.append_assoc]
          rw [parseJStringAux.eq_def]; simp [consFst, ih]
        · by_cases h4 : c = '\t'
          · subst h4
            simp only [escapeList, escapeChar, reduceIte, List.cons_append,
              List.append_assoc]
            rw [parseJStringAux.eq_def]; simp [consFst, ih]
          · by_cases h5 : c = '\n'
            · subst h5
              simp only [escapeList, escapeChar, reduceIte, List.cons_append,
                List.append_assoc]
              rw [parseJStringAux.eq_def]; simp [consFst, ih]
            · by_cases h6 : c = '\x0c'
              · subst h6
                simp only [escapeList, escapeChar, reduceIte, List.cons_append,
                  List.append_assoc]
                rw [parseJStringAux.eq_def]; simp [consFst, ih]
              · by_cases h7 : c = '\r'
                · subst h7
                  simp only [escapeList, escapeChar, reduceIte, List.cons_append,
                    List.append_assoc]
                  rw [parseJStringAux.eq_def]; simp [consFst, ih]
                · by_cases h8 : c.toNat < 32
                  · have hd : c.toNat / 16 < 16 := by omega
                    have hm : c.toNat % 16 < 16 := Nat.mod_lt _ (by omega)
                    have h0 : hexVal '0' = some 0 := by decide
                    have hdm : c.toNat / 16 * 16 + c.toNat % 16 = c.toNat := by
                      omega
                    simp only [escapeList, escapeChar, h1, h2, h3, h4, h5, h6,
                      h7, h8, if_true, if_false, ite_true, ite_false,
                      List.cons_append, List.append_assoc]
                    rw [parseJStringAux.eq_def]
                    simp [h0, hexVal_hexDigitCh _ hd, hexVal_hexDigitCh _ hm,
                      consFst, ih, Char.ofNat_toNat]
                    rw [hdm]
                    exact ⟨Or.inl (by omega), Char.ofNat_toNat c⟩
                  · have h32 : ¬ c.toNat < 32 := h8
                    simp only [escapeList, escapeChar, h1, h2, h3, h4, h5, h6,
                      h7, h32, if_false, ite_false, List.cons_append,
                      List.append_assoc, List.singleton_append]
                    rw [parseJStringAux.eq_def]
                    simp [h1, h2, h32, consFst, ih]

/-- One unfolding step of the whitespace skipper. -/
theorem skipWs_cons (c : Char) (l : List Char) :
    skipWs (c :: l) =
      if c = ' ' ∨ c = '\n' ∨ c = '\t' ∨ c = '\r' then skipWs l else c :: l :=
  rfl

/-- The whitespace skipper on the empty input. -/
theorem skipWs_nil : skipWs [] = [] := rfl

/-- The encoder emits at least one character per member, so the member
count never exceeds the character count. -/
theorem length_le_encodeMembers (ps : List (String × String)) :
    ps.length ≤ (encodeMembers ps).length := by
  induction ps with
  | nil => simp [encodeMembers]
  | cons kv rest ih =>
    obtain ⟨k, v⟩ := kv
    cases rest with
    | nil => simp [encodeMembers]
    | cons kv2 rest2 =>
      simp only [encodeMembers, List.length_cons, List.length_append] at *
      omega

/-- Reading back an encoded non-empty member list consumes exactly the
members and the closing brace line. -/
theorem parseMembersF_encodeMembers (ps : List (String × String)) :
    ∀ (f : Nat) (k v : String) (rest : List Char), ps.length < f →
    parseMembersF f
        (encodeMembers ((k, v) :: ps) ++ '\n' :: ' ' :: ' ' :: '\x7d' :: rest)
      = some ((k, v) :: ps, rest) := by
  induction ps with
  | nil =>
    intro f k v rest hf
    obtain ⟨f', rfl⟩ : ∃ f', f = f' + 1 := ⟨f - 1, by omega⟩
    rw [parseMembersF.eq_def]
    simp only [encodeMembers, encodeJString, List.cons_append, List.nil_append,
      List.append_nil, List.append_assoc, skipWs_cons]
    simp only [Char.reduceEq, or_self, or_false, false_or, if_true, if_false,
      ite_true, ite_false, reduceIte]
    rw [parseJStringAux_escapeList]
    simp only [skipWs_cons, Char.reduceEq, or_self, or_false, false_or,
      reduceIte]
    rw [parseJStringAux_escapeList]
    simp only [skipWs_cons, Char.reduceEq, or_self, or_false, false_or,
      reduceIte]
  | cons kv2 ps2 ih =>
    intro f k v rest hf
    obtain ⟨k2, v2⟩ := kv2
    obtain ⟨f', rfl⟩ : ∃ f', f = f' + 1 := ⟨f - 1, by omega⟩
    rw [parseMembersF.eq_def]
    simp only [encodeMembers, encodeJString, List.cons_append, List.nil_append,
      List.append_nil, List.append_assoc, skipWs_cons]
    simp only [Char.reduceEq, or_self, or_false, false_or, if_true, if_false,
      ite_true, ite_false, reduceIte]
    rw [parseJStringAux_escapeList]
    simp only [skipWs_cons, Char.reduceEq, or_self, or_false, false_or,
      reduceIte]
    rw [parseJStringAux_escapeList]
    simp only [skipWs_cons, Char.reduceEq, or_self, or_false, false_or,
      reduceIte]
    have := ih f' k2 v2 rest (by simpa using Nat.lt_of_succ_lt_succ hf)
    simp only [encodeMembers, encodeJString, List.cons_append, List.nil_append,
      List.append_nil, List.append_assoc] at this
    rw [this]

/-- The serializer/parser round trip: parsing the pretty-printed record
gives back the record. -/
theorem parsePrev_encodePrev (p : Prev) : parsePrev (encodePrev p) = some p := by
  obtain ⟨ps⟩ := p
  show parsePrevChars (encodePrevChars ⟨ps⟩) = some ⟨ps⟩
  cases ps with
  | nil =>
    decide
  | cons kv ps2 =>
    obtain ⟨k, v⟩ := kv
    rw [parsePrevChars]
    simp only [encodePrevChars, encodeInner, encodeJString, List.cons_append,
      List.nil_append, List.append_assoc, skipWs_cons, skipWs_nil,
      Char.reduceEq, or_self, or_false, false_or, reduceIte]
    rw [parseJStringAux_escapeList]
    simp only [skipWs_cons, skipWs_nil, Char.reduceEq, or_self, or_false,
      false_or, reduceIte]
    have hfuel : ps2.length <
        (encodeMembers ((k, v) :: ps2) ++
          ['\n', ' ', ' ', '\x7d', '\n', '\x7d']).length + 1 := by
      have := length_le_encodeMembers ((k, v) :: ps2)
      simp only [List.length_append, List.length_cons] at *
      omega
    rw [show (['\n', ' ', ' ', '\x7d', '\n', '\x7d'] : List Char)
        = '\n' :: ' ' :: ' ' :: '\x7d' :: ['\n', '\x7d'] from rfl]
    rw [parseMembersF_encodeMembers ps2 _ k v ['\n', '\x7d'] hfuel]
    simp only [skipWs_cons, skipWs_nil, Char.reduceEq, or_self, or_false,
      false_or, reduceIte]

/-! ## Claim theorems -/

/-- C9: for every repository identifier R and tag string T, saving a
record that maps R to T with `save_prev` and then loading it with
`load_prev` yields a record whose entry for R equals T. -/
theorem c9_save_load_roundtrip (p : Prev) (R T : String)
    (h : p.get R = some T) :
    (load_prev (some (save_prev p))).get R = some T := by
  show ((parsePrev (save_prev p)).getD ⟨[]⟩).get R = some T
  rw [save_prev, parsePrev_encodePrev]
  exact h

/-- Witness for C9 at the concrete pair ("a/b", "v1"). -/
theorem c9_save_load_roundtrip_witness :
    (Prev.mk [("a/b", "v1")]).get "a/b" = some "v1"
    ∧ (load_prev (some (save_prev ⟨[("a/b", "v1")]⟩))).get "a/b" = some "v1" :=
  ⟨by decide, c9_save_load_roundtrip ⟨[("a/b", "v1")]⟩ "a/b" "v1" (by decide)⟩

/-- C7 counterexample: a HEAD response whose size header is present but
not a decimal number makes the probe fail with a parse error, which is
not a connection-level (transport) failure — so the probe can fail on a
condition of the response other than connection failure. -/
theorem c7_counterexample :
    fetch_asset_size (.ok (some "abc")) = .error .parseInt := by decide

/-- C7 amended: the probe returns 0 when the size header is absent and
propagates connection-level failures as transport errors; but it also
fails when the header is present and is not a valid `u64` decimal string
(header-to-string or integer-parse error). -/
theorem c7_amended (m s : String) (n : Nat) :
    fetch_asset_size (.ok none) = .ok 0
    ∧ fetch_asset_size (.error m) = .error (.transport m)
    ∧ (headerVisibleAscii s = true → parseU64 s = some n →
        fetch_asset_size (.ok (some s)) = .ok n)
    ∧ (headerVisibleAscii s = true → parseU64 s = none →
        fetch_asset_size (.ok (some s)) = .error .parseInt)
    ∧ (headerVisibleAscii s = false →
        fetch_asset_size (.ok (some s)) = .error .headerToStr) := by
  refine ⟨rfl, rfl, ?_, ?_, ?_⟩
  · intro h1 h2; simp [fetch_asset_size, h1, h2]
  · intro h1 h2; simp [fetch_asset_size, h1, h2]
  · intro h1; simp [fetch_asset_size, h1]

/-- Witness for C7-amended: a numeric header, a malformed header, and a
non-ASCII header. -/
theorem c7_amended_witness :
    fetch_asset_size (.ok (some "42")) = .ok 42
    ∧ fetch_asset_size (.ok (some "9x")) = .error .parseInt
    ∧ fetch_asset_size (.ok (some "\x01")) = .error .headerToStr :=
  ⟨(c7_amended "m" "42" 42).2.2.1 (by decide) (by decide),
   (c7_amended "m" "9x" 0).2.2.2.1 (by decide) (by decide),
   (c7_amended "m" "\x01" 0).2.2.2.2 (by decide)⟩

/-- C2: change detection is exact string equality on tags: `has_changed`
is true when the record has no entry and when the stored tag differs as a
string; and when the stored tag equals the fetched release's tag exactly,
the repository is skipped — the only effect is the release fetch itself
(no download or delivery task) and the record is unchanged. -/
theorem c2_change_detection (env : Env) (chat : String) (prev : Prev)
    (R T : String) (rel : Release)
    (hfetch : env.fetchRelease R = .ok rel) :
    (prev.get R = none → has_changed prev R T = true)
    ∧ (∀ s, prev.get R = some s → s ≠ T → has_changed prev R T = true)
    ∧ (prev.get R = some rel.tag_name →
        processRepo env chat prev R = ([.fetch R], .ok prev)) := by
  refine ⟨?_, ?_, ?_⟩
  · intro h; simp [has_changed, h]
  · intro s hs hne; simp [has_changed, hs, hne]
  · intro h; simp [processRepo, hfetch, h]

/-- Witness for C2: missing entry, differing tag, and the exact-match
skip at stored tag `v1`. -/
theorem c2_change_detection_witness :
    has_changed ⟨[]⟩ "a/b" "v1" = true
    ∧ has_changed ⟨[("a/b", "v0")]⟩ "a/b" "v1" = true
    ∧ processRepo envSkip "c" ⟨[("a/b", "v1")]⟩ "a/b"
        = ([.fetch "a/b"], .ok ⟨[("a/b", "v1")]⟩) :=
  ⟨(c2_change_detection envSkip "c" ⟨[]⟩ "a/b" "v1" relV1 (by decide)).1
      (by decide),
   (c2_change_detection envSkip "c" ⟨[("a/b", "v0")]⟩ "a/b" "v1" relV1
      (by decide)).2.1 "v0" (by decide) (by decide),
   (c2_change_detection envSkip "c" ⟨[("a/b", "v1")]⟩ "a/b" "v1" relV1
      (by decide)).2.2 (by decide)⟩

/-- C4 counterexample: with two repositories where the first fetch fails,
the run aborts immediately — the second repository is never fetched and
no state is saved, refuting "the run continues with the subsequent
repositories". -/
theorem c4_counterexample :
    process_repos envFetchFail "c" none ["r1", "r2"]
      = ([.fetch "r1"], .error "down") := by decide

/-- C4 amended: a failed release fetch for one repository aborts the
whole run — the remaining repositories are not processed and the state
file is not written. -/
theorem c4_amended (env : Env) (chat : String) (fs : Option String)
    (r : String) (rs : List String) (e : String)
    (h : env.fetchRelease r = .error e) :
    process_repos env chat fs (r :: rs) = ([.fetch r], .error e) := by
  simp [process_repos, processReposLoop, processRepo, h]

/-- Witness for C4-amended with three repositories. -/
theorem c4_amended_witness :
    process_repos envFetchFail "c" none ["r1", "r2", "r3"]
      = ([.fetch "r1"], .error "down") :=
  c4_amended envFetchFail "c" none "r1" ["r2", "r3"] "down" (by decide)

/-- C1: with the probe reporting size S and the upload pipeline available,
the asset is routed to the inline-upload path — a `sendDocument` call
carrying the asset name and the human-readable size as caption — if and
only if `0 < S ≤ 52428800`; otherwise (S = 0 or S > 52428800) the link
entry (display link plus curl command) is appended to the repository's
text message. -/
theorem c1_size_dispatch (env : Env) (chat_id : String) (a : Asset)
    (msg : String) (st : Bool) (S : Nat) (bs : List Nat)
    (hS : fetch_asset_size (env.head a.browser_download_url) = .ok S)
    (hget : env.getBytes a.browser_download_url = .ok bs)
    (hsend : env.sendDocument chat_id a.name (captionOf a S) = .ok ()) :
    ((0 < S ∧ S ≤ 52428800) ↔
      processAsset env chat_id a msg st
        = ([.headReq a.browser_download_url, .getReq a.browser_download_url,
            .sendDoc chat_id a.name (captionOf a S)], .ok (msg, st)))
    ∧ (S = 0 ∨ 52428800 < S →
      processAsset env chat_id a msg st
        = ([.headReq a.browser_download_url],
           .ok (msg ++ linkEntry a, true))) := by
  have hEq : (50 * 1024 * 1024 : Nat) = 52428800 := by norm_num
  have hbody : processAsset env chat_id a msg st =
      if 0 < S ∧ S ≤ 52428800 then
        ([.headReq a.browser_download_url, .getReq a.browser_download_url,
          .sendDoc chat_id a.name (captionOf a S)], .ok (msg, st))
      else
        ([.headReq a.browser_download_url],
         .ok (msg ++ linkEntry a, true)) := by
    unfold processAsset
    rw [hS]
    by_cases hC : 0 < S ∧ S ≤ 52428800
    · simp [Except.toOption, hEq, hC, hget, hsend]
    · simp [Except.toOption, hEq, hC]
  refine ⟨⟨?_, ?_⟩, ?_⟩
  · intro hC; rw [hbody, if_pos hC]
  · intro hres
    by_contra hC
    rw [hbody, if_neg hC] at hres
    simp at hres
  · intro hS0
    have hC : ¬ (0 < S ∧ S ≤ 52428800) := by omega
    rw [hbody, if_neg hC]

/-- Witness for C1 at both boundary values: 52,428,800 bytes uploads,
52,428,801 bytes links. -/
theorem c1_size_dispatch_witness :
    processAsset env50 "c" ⟨"n", "u"⟩ "m" false
      = ([.headReq "u", .getReq "u",
          .sendDoc "c" "n" (captionOf ⟨"n", "u"⟩ 52428800)], .ok ("m", false))
    ∧ processAsset env51 "c" ⟨"n", "u"⟩ "m" false
      = ([.headReq "u"], .ok ("m" ++ linkEntry ⟨"n", "u"⟩, true)) :=
  ⟨((c1_size_dispatch env50 "c" ⟨"n", "u"⟩ "m" false 52428800 []
      (by decide) (by decide) (by decide)).1).mp (by decide),
   (c1_size_dispatch env51 "c" ⟨"n", "u"⟩ "m" false 52428801 []
      (by decide) (by decide) (by decide)).2 (by decide)⟩

/-- C3 counterexample: a release with two small assets where the first
asset's body download fails.  The failure is propagated, not recorded:
the sibling asset is never probed (no `headReq "u2"`), the record is not
updated and no state is saved (no `saveState`), and the whole run aborts
with the error — although the release itself was fetched successfully. -/
theorem c3_counterexample :
    process_repos envBoom "c" none ["o/r"]
      = ([.fetch "o/r", .headReq "u1", .getReq "u1"], .error "boom") := by
  decide

/-- C3 amended: only a failure of the size probe is recovered locally
(treated as size 0, routing the asset to the link path); a failure of the
body download in the upload path is propagated by `?`: it aborts the
sibling assets of the release and the repository's record update. -/
theorem c3_amended (env : Env) (chat : String) (a : Asset)
    (rest : List Asset) (msg : String) (st : Bool) (S : Nat) (e m : String) :
    (env.head a.browser_download_url = .error m →
      processAsset env chat a msg st
        = ([.headReq a.browser_download_url],
           .ok (msg ++ linkEntry a, true)))
    ∧ (fetch_asset_size (env.head a.browser_download_url) = .ok S →
       0 < S → S ≤ 52428800 →
       env.getBytes a.browser_download_url = .error e →
       processAssets env chat (a :: rest) msg st
         = ([.headReq a.browser_download_url, .getReq a.browser_download_url],
            .error e))
    ∧ (∀ (prev : Prev) (repo : String) (release : Release)
          (effs0 : List Effect),
        env.fetchRelease repo = .ok release → prev.get repo = none →
        release.assets = a :: rest →
        processAssets env chat (a :: rest)
            (releaseHeader repo release.tag_name) false = (effs0, .error e) →
        processRepo env chat prev repo
          = (.fetch repo :: effs0, .error e)) := by
  have hEq : (50 * 1024 * 1024 : Nat) = 52428800 := by norm_num
  refine ⟨?_, ?_, ?_⟩
  · intro h
    simp [processAsset, fetch_asset_size, h, Except.toOption]
  · intro hS h0 hle hfail
    have hbody : processAsset env chat a msg st
        = ([.headReq a.browser_download_url, .getReq a.browser_download_url],
           .error e) := by
      unfold processAsset
      rw [hS]
      simp [Except.toOption, hEq, h0, hle, hfail]
    simp [processAssets, hbody]
  · intro prev repo release effs0 hf hnone hassets hp
    simp [processRepo, hf, Prev.get] at *
    simp [hnone, processRepoBody, hassets, hp]

/-- Witness for C3-amended: probe failure recovered to the link path;
download failure aborting the sibling and the repository. -/
theorem c3_amended_witness :
    processAsset envHeadFail "c" ⟨"a1", "u1"⟩ "m" false
      = ([.headReq "u1"], .ok ("m" ++ linkEntry ⟨"a1", "u1"⟩, true))
    ∧ processAssets envBoom "c" [⟨"a1", "u1"⟩, ⟨"a2", "u2"⟩] "m" false
      = ([.headReq "u1", .getReq "u1"], .error "boom")
    ∧ processRepo envBoom "c" ⟨[]⟩ "o/r"
      = ([.fetch "o/r", .headReq "u1", .getReq "u1"], .error "boom") :=
  ⟨(c3_amended envHeadFail "c" ⟨"a1", "u1"⟩ [] "m" false 0 "e" "timeout").1
      (by decide),
   (c3_amended envBoom "c" ⟨"a1", "u1"⟩ [⟨"a2", "u2"⟩] "m" false 10 "boom"
      "m").2.1 (by decide) (by decide) (by decide) (by decide),
   (c3_amended envBoom "c" ⟨"a1", "u1"⟩ [⟨"a2", "u2"⟩]
      (releaseHeader "o/r" "v2") false 10 "boom" "m").2.2 ⟨[]⟩ "o/r" relV2
      [.headReq "u1", .getReq "u1"] (by decide) (by decide) (by decide)
      (by decide)⟩

/-- C8 counterexample: in the unchanged-tag scenario the only network
call is the release fetch and the run exits successfully, but the state
file IS written once at the end of the run (`save_prev` runs
unconditionally after the loop), refuting "no state-file write". -/
theorem c8_counterexample :
    process_repos envSkip "c" (some (encodePrev ⟨[("a/b", "v1")]⟩)) ["a/b"]
      = ([.fetch "a/b", .saveState (encodePrev ⟨[("a/b", "v1")]⟩)],
         .ok (some (encodePrev ⟨[("a/b", "v1")]⟩)))
    ∧ Effect.saveState (encodePrev ⟨[("a/b", "v1")]⟩)
        ∈ (process_repos envSkip "c"
            (some (encodePrev ⟨[("a/b", "v1")]⟩)) ["a/b"]).1 := by
  constructor <;> decide

/-- C8 amended: when the stored tag equals the fetched tag, the run
performs no network call beyond the release fetch, makes no change to the
record for that repository, and exits successfully — but the end-of-run
save still writes the state file once, with unchanged contents. -/
theorem c8_amended (env : Env) (chat R : String) (p : Prev) (rel : Release)
    (hf : env.fetchRelease R = .ok rel)
    (hp : p.get R = some rel.tag_name) :
    process_repos env chat (some (encodePrev p)) [R]
      = ([.fetch R, .saveState (encodePrev p)], .ok (some (encodePrev p))) := by
  have hload : load_prev (some (encodePrev p)) = p := by
    show (parsePrev (encodePrev p)).getD ⟨[]⟩ = p
    rw [parsePrev_encodePrev]
    rfl
  simp [process_repos, processReposLoop, processRepo, hload, hf, hp,
    save_prev]

/-- Witness for C8-amended at the concrete scenario of the claim. -/
theorem c8_amended_witness :
    process_repos envSkip "tg" (some (encodePrev ⟨[("a/b", "v1")]⟩)) ["a/b"]
      = ([.fetch "a/b", .saveState (encodePrev ⟨[("a/b", "v1")]⟩)],
         .ok (some (encodePrev ⟨[("a/b", "v1")]⟩))) :=
  c8_amended envSkip "tg" "a/b" ⟨[("a/b", "v1")]⟩ relV1 (by decide) (by decide)

/-- A download task whose GET fails performs no write and reports the
error. -/
theorem download_asset_error (env : Env) (url dir fn : String) (e : String)
    (h : env.getBytes url = .error e) :
    download_asset env url dir fn = ([], .error e) := by
  simp [download_asset, h]

/-- A download task whose GET succeeds writes the body to `dir/fn`. -/
theorem download_asset_ok (env : Env) (url dir fn : String) (bs : List Nat)
    (h : env.getBytes url = .ok bs) :
    download_asset env url dir fn
      = ([.write (dir ++ "/" ++ fn) (toString bs)], .ok ()) := by
  simp [download_asset, h]

/-- The join loop reports the error of the first failing task when every
earlier task succeeded. -/
theorem firstErr_map_at (env : Env) (dir : String) :
    ∀ (l : List Asset) (i : Nat) (a : Asset) (e : String),
    l[i]? = some a →
    env.getBytes a.browser_download_url = .error e →
    (∀ j b, j < i → l[j]? = some b →
        ∃ bs, env.getBytes b.browser_download_url = Except.ok bs) →
    firstErr (l.map
        (fun x => (download_asset env x.browser_download_url dir x.name).2))
      = some e := by
  intro l
  induction l with
  | nil => intro i a e hi; simp at hi
  | cons x xs ih =>
    intro i a e hi hfail hok
    cases i with
    | zero =>
      simp only [List.getElem?_cons_zero, Option.some.injEq] at hi
      subst hi
      simp [download_asset_error env _ dir x.name e hfail, firstErr]
    | succ i' =>
      obtain ⟨bs, hbs⟩ := hok 0 x (Nat.succ_pos _) (by simp)
      simp only [List.getElem?_cons_succ] at hi
      simp only [List.map_cons]
      rw [download_asset_ok env _ dir x.name bs hbs]
      simp only [firstErr]
      exact ih i' a e hi hfail
        (fun j b hj hjb => hok (j + 1) b (by omega) (by simpa using hjb))

/-- If the join loop reports no error, every task's GET succeeded. -/
theorem firstErr_map_none (env : Env) (dir : String) :
    ∀ (l : List Asset),
    firstErr (l.map
        (fun x => (download_asset env x.browser_download_url dir x.name).2))
      = none →
    ∀ (i : Nat) (a : Asset), l[i]? = some a →
      ∀ e, env.getBytes a.browser_download_url ≠ .error e := by
  intro l
  induction l with
  | nil => intro _ i a hi; simp at hi
  | cons x xs ih =>
    intro h i a hi e hfail
    cases hx : env.getBytes x.browser_download_url with
    | error e' =>
      rw [List.map_cons, download_asset_error env _ dir x.name e' hx] at h
      simp [firstErr] at h
    | ok bs =>
      rw [List.map_cons, download_asset_ok env _ dir x.name bs hx] at h
      simp only [firstErr] at h
      cases i with
      | zero =>
        simp only [List.getElem?_cons_zero, Option.some.injEq] at hi
        subst hi
        rw [hfail] at hx
        exact Except.noConfusion hx
      | succ i' =>
        simp only [List.getElem?_cons_succ] at hi
        exact ih h i' a hi e hfail

/-- When every GET succeeds, the tasks' writes are exactly one file per
asset, in asset order. -/
theorem writes_all_ok (env : Env) (dir : String) (f : Asset → List Nat) :
    ∀ (l : List Asset),
    (∀ a ∈ l, env.getBytes a.browser_download_url = Except.ok (f a)) →
    (l.map (fun x =>
        (download_asset env x.browser_download_url dir x.name).1)).flatten
      = l.map (fun a => .write (dir ++ "/" ++ a.name) (toString (f a))) := by
  intro l
  induction l with
  | nil => intro _; simp
  | cons x xs ih =>
    intro h
    have hx := h x (by simp)
    simp only [List.map_cons, List.flatten_cons]
    rw [download_asset_ok env _ dir x.name (f x) hx]
    rw [ih (fun a ha => h a (by simp [ha]))]
    rfl

/-- When every GET succeeds, the join loop reports no error. -/
theorem firstErr_all_ok (env : Env) (dir : String) (f : Asset → List Nat) :
    ∀ (l : List Asset),
    (∀ a ∈ l, env.getBytes a.browser_download_url = Except.ok (f a)) →
    firstErr (l.map
        (fun x => (download_asset env x.browser_download_url dir x.name).2))
      = none := by
  intro l
  induction l with
  | nil => intro _; simp [firstErr]
  | cons x xs ih =>
    intro h
    simp only [List.map_cons]
    rw [download_asset_ok env _ dir x.name (f x) (h x (by simp))]
    simp only [firstErr]
    exact ih (fun a ha => h a (by simp [ha]))

/-- C5 counterexample: five assets where the downloads of `n2` and `n4`
fail.  The aggregate operation fails with the bare first error `"e2"` —
there is no `PartialDownloadError` value enumerating the two failing
names and the three succeeding paths (the successful paths are dropped
from the result; the writes of the successful tasks still happen). -/
theorem c5_counterexample :
    download_assets_concurrent envTwoFail "o/r" rel5
      = ([.mkdir "assets/o_r", .write "assets/o_r/n1" "[7]",
          .write "assets/o_r/n3" "[7]", .write "assets/o_r/n5" "[7]"],
         .error "e2") := by decide

/-- C5 amended: if any spawned download task fails, the aggregate
operation fails — never returning a truncated success — but it fails with
the error of the first failing task in asset order, without enumerating
the failing names or the succeeding paths. -/
theorem c5_amended (env : Env) (repo : String) (rel : Release) :
    (∀ (i : Nat) (a : Asset) (e : String), rel.assets[i]? = some a →
      env.getBytes a.browser_download_url = .error e →
      (∀ (j : Nat) (b : Asset), j < i → rel.assets[j]? = some b →
          ∃ bs, env.getBytes b.browser_download_url = Except.ok bs) →
      (download_assets_concurrent env repo rel).2 = .error e)
    ∧ (∀ (i : Nat) (a : Asset) (e : String) (ps : List String),
        rel.assets[i]? = some a →
        env.getBytes a.browser_download_url = .error e →
        (download_assets_concurrent env repo rel).2 ≠ .ok ps) := by
  constructor
  · intro i a e hi hfail hok
    have hfe := firstErr_map_at env ("assets/" ++ replaceSlash repo)
      rel.assets i a e hi hfail hok
    simp only [download_assets_concurrent, List.map_map]
    rw [show ((fun p : List FsEffect × Except String Unit => p.2) ∘
        fun a : Asset => download_asset env a.browser_download_url
          ("assets/" ++ replaceSlash repo) a.name)
      = (fun x : Asset => (download_asset env x.browser_download_url
          ("assets/" ++ replaceSlash repo) x.name).2) from rfl]
    rw [hfe]
  · intro i a e ps hi hfail
    intro hcontra
    simp only [download_assets_concurrent, List.map_map] at hcontra
    rw [show ((fun p : List FsEffect × Except String Unit => p.2) ∘
        fun a : Asset => download_asset env a.browser_download_url
          ("assets/" ++ replaceSlash repo) a.name)
      = (fun x : Asset => (download_asset env x.browser_download_url
          ("assets/" ++ replaceSlash repo) x.name).2) from rfl] at hcontra
    cases hfe : firstErr (rel.assets.map
        (fun x => (download_asset env x.browser_download_url
          ("assets/" ++ replaceSlash repo) x.name).2)) with
    | some e' => rw [hfe] at hcontra; exact Except.noConfusion hcontra
    | none =>
      exact firstErr_map_none env ("assets/" ++ replaceSlash repo)
        rel.assets hfe i a hi e hfail

/-- Witness for C5-amended on `rel5` with failures at `n2` and `n4`. -/
theorem c5_amended_witness :
    (download_assets_concurrent envTwoFail "o/r" rel5).2 = .error "e2"
    ∧ (download_assets_concurrent envTwoFail "o/r" rel5).2
        ≠ .ok ["assets/o_r/n1"] :=
  ⟨(c5_amended envTwoFail "o/r" rel5).1 1 ⟨"n2", "w2"⟩ "e2" (by decide)
      (by decide)
      (fun j b hj hjb => ⟨[7], by
        interval_cases j
        · simp only [show rel5.assets[0]? = some ⟨"n1", "w1"⟩ from rfl,
            Option.some.injEq] at hjb
          subst hjb
          decide⟩),
   (c5_amended envTwoFail "o/r" rel5).2 3 ⟨"n4", "w4"⟩ "e4"
      ["assets/o_r/n1"] (by decide) (by decide)⟩

/-- C6 counterexample: a fully successful run of the standalone
downloader.  Its complete file-system effect trace is the directory
creation and one write per asset file — no manifest file listing the
local paths is ever written (the function merely returns the paths). -/
theorem c6_counterexample :
    download_assets_concurrent envAllOk "o/r" relV2
      = ([.mkdir "assets/o_r", .write "assets/o_r/a1" "[7]",
          .write "assets/o_r/a2" "[7]"],
         .ok ["assets/o_r/a1", "assets/o_r/a2"]) := by decide

/-- C6 amended: when every download succeeds the downloader returns the
list of local paths, and its only file-system effects are the directory
creation and the per-asset body writes — it writes no manifest file. -/
theorem c6_amended (env : Env) (repo : String) (rel : Release)
    (f : Asset → List Nat)
    (hb : ∀ a ∈ rel.assets,
        env.getBytes a.browser_download_url = Except.ok (f a)) :
    download_assets_concurrent env repo rel
      = (FsEffect.mkdir ("assets/" ++ replaceSlash repo) ::
          rel.assets.map (fun a =>
            FsEffect.write ("assets/" ++ replaceSlash repo ++ "/" ++ a.name)
              (toString (f a))),
         .ok (rel.assets.map
            (fun a => "assets/" ++ replaceSlash repo ++ "/" ++ a.name))) := by
  have hfe := firstErr_all_ok env ("assets/" ++ replaceSlash repo) f
    rel.assets hb
  have hw := writes_all_ok env ("assets/" ++ replaceSlash repo) f
    rel.assets hb
  simp only [download_assets_concurrent, List.map_map]
  rw [show ((fun p : List FsEffect × Except String Unit => p.2) ∘
      fun a : Asset => download_asset env a.browser_download_url
        ("assets/" ++ replaceSlash repo) a.name)
    = (fun x : Asset => (download_asset env x.browser_download_url
        ("assets/" ++ replaceSlash repo) x.name).2) from rfl]
  rw [show ((fun p : List FsEffect × Except String Unit => p.1) ∘
      fun a : Asset => download_asset env a.browser_download_url
        ("assets/" ++ replaceSlash repo) a.name)
    = (fun x : Asset => (download_asset env x.browser_download_url
        ("assets/" ++ replaceSlash repo) x.name).1) from rfl]
  rw [hfe, hw]

/-- Witness for C6-amended on the five-asset release. -/
theorem c6_amended_witness :
    download_assets_concurrent envAllOk "o/r" rel5
      = ([.mkdir "assets/o_r", .write "assets/o_r/n1" "[7]",
          .write "assets/o_r/n2" "[7]", .write "assets/o_r/n3" "[7]",
          .write "assets/o_r/n4" "[7]", .write "assets/o_r/n5" "[7]"],
         .ok ["assets/o_r/n1", "assets/o_r/n2", "assets/o_r/n3",
              "assets/o_r/n4", "assets/o_r/n5"]) :=
  c6_amended envAllOk "o/r" rel5 (fun _ => [7]) (by decide)

/-- C10: a successful `download_assets_concurrent` returns exactly one
local path per asset, in asset order, each equal to
`assets/` + (repo with `/` replaced by `_`) + `/` + the asset's name. -/
theorem c10_result_paths (env : Env) (repo : String) (rel : Release)
    (ps : List String)
    (h : (download_assets_concurrent env repo rel).2 = .ok ps) :
    ps = rel.assets.map
        (fun a => "assets/" ++ replaceSlash repo ++ "/" ++ a.name) := by
  simp only [download_assets_concurrent] at h
  split at h
  · exact Except.noConfusion h
  · simpa using h.symm

/-- Witness for C10 on the two-asset release. -/
theorem c10_result_paths_witness :
    ["assets/o_r/a1", "assets/o_r/a2"]
      = relV2.assets.map
          (fun a => "assets/" ++ replaceSlash "o/r" ++ "/" ++ a.name) :=
  c10_result_paths envAllOk "o/r" relV2 ["assets/o_r/a1", "assets/o_r/a2"]
    (by decide)
